import Mathlib

/-!
Shallow embedding of the normalizing bulk-insertion engine of
`app/infrastructure/database/db_wrapper.py` (class `PostgresWrapper`),
together with the data model of `app/infrastructure/database/models.py`
(dataclass `NormRef`).

Modelling conventions:
* Python values appearing in a row are modelled by the inductive `Value`
  (strings, integers, `None`, nested lists/dicts, the ellipsis sentinel).
* A Python `dict` is modelled as an association list in insertion order;
  `dict` keys are unique, which is recorded as a hypothesis where needed.
* Python exceptions are modelled by `PyErr` and fallible code returns
  `Except PyErr _` in the order in which the source can raise.
* `str.join` is modelled by `strJoin`, decimal rendering of an integer in
  an f-string by `natDecimal`/`intDecimal`.  The SQL text is assembled
  from exactly the source fragments; whitespace inside the triple-quoted
  f-string blocks is normalized to single separators, which no claim
  depends on.
* The database driver (psycopg2) is modelled by an abstract `Engine`:
  a function from (statement text, bound parameters, current table state)
  to either an error diagnostic or (new state, affected row count); the
  connection keeps a durable (committed) state and the current
  in-transaction state, `commit` publishes the current state and
  `rollback` restores the durable one.
-/

namespace DbWrapper

/-- A Python value that can appear in a row batch: scalar, `None`,
nested list/dict (semi-structured payload) or the ellipsis sentinel. -/
inductive Value where
  | pyStr (s : String)
  | pyInt (n : Int)
  | pyNull
  | pyList (l : List Value)
  | pyDict (m : List (String × Value))
  | pyEllipsis

/-- A row: a Python dict from column name to value, in insertion order. -/
def Row : Type := List (String × Value)

/-- A join key of `NormRef`: `Union[str, tuple[str, ...]]`. -/
inductive PyKey where
  | pyStr (s : String)
  | pyTuple (l : List String)
deriving DecidableEq

/-- `models.NormRef`: declarative description of one natural-key
resolution (field names as in the source). -/
structure NormRef where
  t2_key_value : String
  t2_name : String
  t1_key_join : PyKey
  t2_key_join : PyKey

/-- One entry of `unique_columns : list[Union[str, tuple[str, ...]]]`.
`other` stands for a value of any type outside the annotation, so that
the `TypeError` branch of `_get_exclusion_clause` is representable. -/
inductive ConflictEntry where
  | str (s : String)
  | tup (l : List String)
  | other
deriving DecidableEq

/-- The Python exceptions the embedded code can raise. -/
inductive PyErr where
  | valueError (msg : String)
  | typeError (msg : String)
  | keyError (key : String)
  | indexError
  | engine (diagnostic : String)
deriving DecidableEq

/-- Keys of a row, in insertion order: `list(row.keys())`. -/
def rowKeys (r : Row) : List String := r.map Prod.fst

/-- First value stored under key `k`: Python `row[k]` (dict keys are
unique, so first = only). -/
def assocLookup {α : Type} (m : List (String × α)) (k : String) : Option α :=
  match m with
  | [] => none
  | (k2, v) :: rest => if k2 = k then some v else assocLookup rest k

/-- Python dict assignment `m[k] = v`: replaces in place when the key is
present, appends at the end otherwise. -/
def assocSet (m : List (String × String)) (k v : String) : List (String × String) :=
  if (assocLookup m k).isSome then
    m.map (fun p => if p.1 = k then (k, v) else p)
  else
    m ++ [(k, v)]

/-- Python `sep.join(parts)`. -/
def strJoin (sep : String) : List String → String
  | [] => ""
  | [x] => x
  | x :: y :: rest => x ++ sep ++ strJoin sep (y :: rest)

/-- Decimal digit character, `chr(48 + d)`. -/
def digitChar (d : Nat) : Char := Char.ofNat (48 + d)

/-- Decimal digits of `n`, most significant first (fuel-structured so
that concrete instances reduce definitionally; `fuel > n` suffices). -/
def natDigitsAux : Nat → Nat → List Char
  | 0, _ => []
  | fuel + 1, n =>
    if n < 10 then [digitChar n]
    else natDigitsAux fuel (n / 10) ++ [digitChar (n % 10)]

/-- Decimal digits of `n`, most significant first. -/
def natDigits (n : Nat) : List Char := natDigitsAux (n + 1) n

/-- Decimal rendering of a natural number, as a Python f-string does. -/
def natDecimal (n : Nat) : String := ⟨natDigits n⟩

/-- Decimal rendering of an integer. -/
def intDecimal (n : Int) : String :=
  if n < 0 then "-" ++ natDecimal n.natAbs else natDecimal n.natAbs

/-- A double-quoted SQL identifier, the f-string fragment `"{col}"`. -/
def quoteId (c : String) : String := "\"" ++ c ++ "\""

/-! ### `_validate_columns` -/

/-- `set(columns) - set(row.keys())`, listed in the order of `columns`
(iteration order of a Python `set` is unspecified; every claim only uses
which columns are missing, not their order). -/
def missingColumns (columns : List String) (row : Row) : List String :=
  columns.filter (fun c => (assocLookup row c).isNone)

/-- The loop of `_validate_columns`, carrying the running index. -/
def validate_columns_from (columns : List String) : Nat → List Row → Except PyErr Unit
  | _, [] => .ok ()
  | idx, row :: rest =>
    let missing := missingColumns columns row
    if missing.isEmpty then validate_columns_from columns (idx + 1) rest
    else .error (.valueError ("Value at index " ++ natDecimal idx ++
      " is missing columns: " ++ strJoin ", " missing))

/-- `PostgresWrapper._validate_columns`: the reference column set is
taken from `rows[0]` (an empty list would raise `IndexError`; the caller
guards against it). -/
def validate_columns (rows : List Row) : Except PyErr Unit :=
  match rows with
  | [] => .error .indexError
  | r0 :: _ => validate_columns_from (rowKeys r0) 0 rows

/-! ### `_validate_values` -/

/-- Key of the first ellipsis-valued item of a row, if any. -/
def firstEllipsisKey : Row → Option String
  | [] => none
  | (k, v) :: rest =>
    match v with
    | .pyEllipsis => some k
    | _ => firstEllipsisKey rest

/-- The loop of `_validate_values`, carrying the running index. -/
def validate_values_from : Nat → List Row → Except PyErr Unit
  | _, [] => .ok ()
  | idx, row :: rest =>
    match firstEllipsisKey row with
    | some k => .error (.valueError ("Value at index " ++ natDecimal idx ++
        " has ellipsis value for key " ++ k))
    | none => validate_values_from (idx + 1) rest

/-- `PostgresWrapper._validate_values`. -/
def validate_values (rows : List Row) : Except PyErr Unit :=
  validate_values_from 0 rows

/-! ### Parameter serialization -/

/-- `isinstance(v, (dict, list))`. -/
def isCollection : Value → Bool
  | .pyList _ => true
  | .pyDict _ => true
  | _ => false

/-- JSON string quoting with the escapes of `json.dumps` that matter
here (backslash, double quote, the common control characters). -/
def jsonQuoteChar (c : Char) : String :=
  if c = Char.ofNat 92 then "\\\\"
  else if c = Char.ofNat 34 then "\\\""
  else if c = Char.ofNat 10 then "\\n"
  else if c = Char.ofNat 13 then "\\r"
  else if c = Char.ofNat 9 then "\\t"
  else ⟨[c]⟩

/-- JSON rendering of a Python string literal. -/
def jsonQuote (s : String) : String :=
  "\"" ++ String.join (s.data.map jsonQuoteChar) ++ "\""

mutual
/-- `json.dumps` with its default separators; the ellipsis sentinel is
not JSON serializable and raises `TypeError`, as in Python. -/
def jsonDumps : Value → Except PyErr String
  | .pyStr s => .ok (jsonQuote s)
  | .pyInt n => .ok (intDecimal n)
  | .pyNull => .ok "null"
  | .pyEllipsis => .error (.typeError "Object of type ellipsis is not JSON serializable")
  | .pyList l =>
    match jsonDumpsList l with
    | .error e => .error e
    | .ok xs => .ok ("[" ++ strJoin ", " xs ++ "]")
  | .pyDict m =>
    match jsonDumpsDict m with
    | .error e => .error e
    | .ok xs => .ok ("\x7b" ++ strJoin ", " xs ++ "\x7d")

/-- `json.dumps` of the items of a list. -/
def jsonDumpsList : List Value → Except PyErr (List String)
  | [] => .ok []
  | v :: vs =>
    match jsonDumps v with
    | .error e => .error e
    | .ok s =>
      match jsonDumpsList vs with
      | .error e => .error e
      | .ok rest => .ok (s :: rest)

/-- `json.dumps` of the items of a dict. -/
def jsonDumpsDict : List (String × Value) → Except PyErr (List String)
  | [] => .ok []
  | (k, v) :: vs =>
    match jsonDumps v with
    | .error e => .error e
    | .ok s =>
      match jsonDumpsDict vs with
      | .error e => .error e
      | .ok rest => .ok ((jsonQuote k ++ ": " ++ s) :: rest)
end

/-- One bound parameter:
`row[col] if not isinstance(row[col], (dict, list)) else json.dumps(row[col])`. -/
def serializeParam (v : Value) : Except PyErr Value :=
  if isCollection v then
    match jsonDumps v with
    | .error e => .error e
    | .ok s => .ok (.pyStr s)
  else .ok v

/-- Parameters contributed by one row: its values under `columns`, in
`columns` order (`row[col]` raises `KeyError` when the key is absent). -/
def rowParams (row : Row) : List String → Except PyErr (List Value)
  | [] => .ok []
  | c :: cs =>
    match assocLookup row c with
    | none => .error (.keyError c)
    | some v =>
      match serializeParam v with
      | .error e => .error e
      | .ok x =>
        match rowParams row cs with
        | .error e => .error e
        | .ok xs => .ok (x :: xs)

/-- The flattened, row-major parameter tuple:
`tuple(f(row, col) for row in rows for col in columns)`. -/
def paramsList (columns : List String) : List Row → Except PyErr (List Value)
  | [] => .ok []
  | row :: rest =>
    match rowParams row columns with
    | .error e => .error e
    | .ok x =>
      match paramsList columns rest with
      | .error e => .error e
      | .ok xs => .ok (x ++ xs)

/-! ### Placeholders -/

/-- `"(" + ", ".join(["%s"] * len(columns)) + ")"`. -/
def rowPlaceholders (m : Nat) : String :=
  "(" ++ strJoin ", " (List.replicate m "%s") ++ ")"

/-- `", ".join([rowPlaceholders for _ in rows])`. -/
def valuesPlaceholders (n m : Nat) : String :=
  strJoin ", " (List.replicate n (rowPlaceholders m))

/-- Number of occurrences of the substring `%s` in a character list. -/
def countPS : List Char → Nat
  | '%' :: 's' :: rest => countPS rest + 1
  | _ :: rest => countPS rest
  | [] => 0

/-! ### `_make_cte_for_norm_values__make_joins` -/

/-- Python `len` of a join key (`len` of a string counts characters). -/
def pyKeyLen : PyKey → Nat
  | .pyStr s => s.length
  | .pyTuple l => l.length

/-- Iterating a join key, as Python iteration does: a string yields its
characters one by one, a tuple yields its entries. -/
def pyKeyItems : PyKey → List String
  | .pyStr s => s.data.map (fun c => ⟨[c]⟩)
  | .pyTuple l => l

/-- One join equality, `new_rows."t1" = "alias"."t2"`. -/
def joinEq (cteO t1 tblAlias t2 : String) : String :=
  cteO ++ "." ++ quoteId t1 ++ " = " ++ quoteId tblAlias ++ "." ++ quoteId t2

/-- `PostgresWrapper._make_cte_for_norm_values__make_joins`.  Both `str`
and `tuple` are `Iterable`, so the mixed shapes fall into the
multi-column branch and the final `TypeError` branch is unreachable for
values of the annotated type `Union[str, tuple[str, ...]]`. -/
def make_joins (cteO : String) (rule : NormRef) (tblAlias : String) :
    Except PyErr (List String) :=
  match rule.t1_key_join, rule.t2_key_join with
  | .pyStr a, .pyStr b => .ok [joinEq cteO a tblAlias b]
  | k1, k2 =>
    if pyKeyLen k1 ≠ pyKeyLen k2 then
      .error (.valueError ("Length of join keys must be the same, got " ++
        natDecimal (pyKeyLen k1) ++ " and " ++ natDecimal (pyKeyLen k2)))
    else
      .ok (((pyKeyItems k1).zip (pyKeyItems k2)).map
        (fun p => joinEq cteO p.1 tblAlias p.2))

/-! ### `_make_cte_for_norm_values` -/

/-- `f"{rule.t2_name}_{join_index}"`. -/
def tableAlias (t2name : String) (joinIndex : Nat) : String :=
  t2name ++ "_" ++ natDecimal joinIndex

/-- `f!"{alias}"."{t2_key_value}" AS "{col}"` — the substituted select
item for a normalized column. -/
def normValueSelect (tblAlias keyValue col : String) : String :=
  quoteId tblAlias ++ "." ++ quoteId keyValue ++ " AS " ++ quoteId col

/-- `LEFT JOIN "t2" "alias" ON <joins_combined>`. -/
def joinClauseStr (t2name tblAlias joinsCombined : String) : String :=
  "LEFT JOIN " ++ quoteId t2name ++ " " ++ quoteId tblAlias ++ " ON " ++ joinsCombined

/-- The initial `norm_cols` dict: every batch column passes through as
`new_rows."c"`. -/
def normColsInit (cteO : String) (columns : List String) : List (String × String) :=
  columns.map (fun c => (c, cteO ++ "." ++ quoteId c))

/-- The loop of `_make_cte_for_norm_values` over `enumerate(norm_values.items())`:
updates `norm_cols` and accumulates the join clauses. -/
def processRules (cteO : String) :
    Nat → List (String × String) → List String → List (String × NormRef) →
    Except PyErr (List (String × String) × List String)
  | _, normCols, joinsAcc, [] => .ok (normCols, joinsAcc)
  | i, normCols, joinsAcc, (col, rule) :: rest =>
    let a := tableAlias rule.t2_name i
    let normCols2 := assocSet normCols col (normValueSelect a rule.t2_key_value col)
    match make_joins cteO rule a with
    | .error e => .error e
    | .ok js =>
      processRules cteO (i + 1) normCols2
        (joinsAcc ++ [joinClauseStr rule.t2_name a (strJoin " AND " js)]) rest

/-- `PostgresWrapper._make_cte_for_norm_values`: the derived relation
selects `norm_cols[c] for c in columns` — the original batch columns in
the original order — from the raw CTE with the accumulated left joins. -/
def make_cte_for_norm_values (norm_values : List (String × NormRef))
    (columns : List String) (cteO cteN : String) : Except PyErr String :=
  match processRules cteO 0 (normColsInit cteO columns) [] norm_values with
  | .error e => .error e
  | .ok (normCols, joinsClauses) =>
    let normColsCombined := strJoin ",\n" (columns.map (fun c => (assocLookup normCols c).getD ""))
    let joinsCombined := strJoin "\n" joinsClauses
    .ok (", " ++ cteN ++ " AS (SELECT " ++ normColsCombined ++ " FROM " ++
      cteO ++ " " ++ joinsCombined ++ ")")

/-! ### `_get_exclusion_clause` -/

/-- The condition of one uniqueness constraint: a single equality for a
plain column name, the AND of the per-column equalities for a composite
key, a `TypeError` for anything else. -/
def conflictCondition (sourceTable : String) : ConflictEntry → Except PyErr String
  | .str c => .ok ("p." ++ quoteId c ++ " = " ++ sourceTable ++ "." ++ quoteId c)
  | .tup l => .ok (strJoin " AND "
      (l.map (fun col => "p." ++ quoteId col ++ " = " ++ sourceTable ++ "." ++ quoteId col)))
  | .other => .error (.typeError "Conflict column must be a string or a tuple of strings")

/-- The loop of `_get_exclusion_clause`: each condition is
parenthesized and appended in order. -/
def conflictConds (sourceTable : String) : List ConflictEntry → Except PyErr (List String)
  | [] => .ok []
  | e :: rest =>
    match conflictCondition sourceTable e with
    | .error err => .error err
    | .ok c =>
      match conflictConds sourceTable rest with
      | .error err => .error err
      | .ok cs => .ok (("(" ++ c ++ ")") :: cs)

/-- `PostgresWrapper._get_exclusion_clause`: conditions are OR-combined
inside one `NOT EXISTS` against the target table. -/
def get_exclusion_clause (schema_name target_table sourceTable : String)
    (conflict_columns : List ConflictEntry) : Except PyErr String :=
  match conflictConds sourceTable conflict_columns with
  | .error e => .error e
  | .ok conds =>
    .ok ("AND NOT EXISTS (SELECT 1 FROM " ++ quoteId schema_name ++ "." ++
      quoteId target_table ++ " p WHERE " ++ strJoin " OR " conds ++ ")")

/-! ### `_insert_values_query` -/

/-- `self.cte_name_orig`. -/
def cteNameOrig : String := "new_rows"

/-- `self.cte_name_norm`. -/
def cteNameNorm : String := "new_rows_norm"

/-- `columns_to_insert or columns` (a `None` and an empty list are both
falsy in Python). -/
def selectedColumnsToInsert (columns_to_insert : Option (List String))
    (columns : List String) : List String :=
  match columns_to_insert with
  | none => columns
  | some [] => columns
  | some l => l

/-- One target/select column expression: quoted, with an explicit cast
appended when a type override exists for the column. -/
def castColumnExpr (types : List (String × String)) (c : String) : String :=
  match assocLookup types c with
  | none => quoteId c
  | some t => quoteId c ++ "::" ++ t

/-- The insert target-column list, in `columns_to_insert` order. -/
def insertColsList (sel : List String) : List String := sel.map quoteId

/-- The select list, in `columns_to_insert` order, with casts. -/
def insertValuesList (types : List (String × String)) (sel : List String) : List String :=
  sel.map (castColumnExpr types)

/-- The final `INSERT INTO ... SELECT ... FROM ... WHERE 1=1` part. -/
def insertStatementPart (schema_name table columnsInsertCsv columnsInsertValuesCsv sourceTable : String) : String :=
  "INSERT INTO " ++ quoteId schema_name ++ "." ++ quoteId table ++ " (" ++
    columnsInsertCsv ++ ") SELECT " ++ columnsInsertValuesCsv ++ " FROM " ++
    sourceTable ++ " WHERE 1=1"

/-- `PostgresWrapper._insert_values_query`, kept as the list
`query_parts` plus the parameter tuple; errors are raised in the order
of the source: the normalization CTE first, then `_validate_values`,
then parameter serialization, then the exclusion clause. -/
def queryParts (table : String) (rows : List Row)
    (columns_to_insert : Option (List String))
    (unique_columns : Option (List ConflictEntry))
    (norm_values : Option (List (String × NormRef)))
    (custom_columns_types : Option (List (String × String)))
    (schema_name : String) : Except PyErr (List String × List Value) :=
  match rows with
  | [] => .error .indexError
  | r0 :: _ =>
    let columns := rowKeys r0
    let colsCsv := strJoin ", " (columns.map quoteId)
    let part1 := "WITH " ++ cteNameOrig ++ " (" ++ colsCsv ++ ") AS (VALUES " ++
      valuesPlaceholders rows.length columns.length ++ ")"
    let normList := (norm_values.getD [])
    match (if normList.isEmpty then Except.ok (none : Option String)
           else (make_cte_for_norm_values normList columns cteNameOrig cteNameNorm).map some) with
    | .error e => .error e
    | .ok normPart =>
      let sourceTable := if normList.isEmpty then cteNameOrig else cteNameNorm
      match validate_values rows with
      | .error e => .error e
      | .ok _ =>
        let types := (custom_columns_types.getD [])
        match paramsList columns rows with
        | .error e => .error e
        | .ok params =>
          let sel := selectedColumnsToInsert columns_to_insert columns
          let insertPart := insertStatementPart schema_name table
            (strJoin ", " (insertColsList sel))
            (strJoin ", " (insertValuesList types sel)) sourceTable
          let uniqueList := (unique_columns.getD [])
          match (if uniqueList.isEmpty then Except.ok (none : Option String)
                 else (get_exclusion_clause schema_name table sourceTable uniqueList).map some) with
          | .error e => .error e
          | .ok exclPart =>
            .ok ((part1 :: normPart.toList) ++ [insertPart] ++ exclPart.toList, params)

/-- `_insert_values_query` proper: the parts joined by newlines. -/
def insert_values_query (table : String) (rows : List Row)
    (columns_to_insert : Option (List String))
    (unique_columns : Option (List ConflictEntry))
    (norm_values : Option (List (String × NormRef)))
    (custom_columns_types : Option (List (String × String)))
    (schema_name : String) : Except PyErr (String × List Value) :=
  match queryParts table rows columns_to_insert unique_columns norm_values
      custom_columns_types schema_name with
  | .error e => .error e
  | .ok (parts, params) => .ok (strJoin "\n" parts, params)

/-! ### Executor -/

/-- A psycopg2 connection: the durable (committed) table state and the
state seen by the current transaction. -/
structure Conn (σ : Type) where
  durable : σ
  current : σ

/-- The underlying database engine: executing a statement with its bound
parameters on a state either fails with a diagnostic or yields the new
state plus `cursor.rowcount`, the number of rows actually inserted. -/
def Engine (σ : Type) : Type :=
  String → List Value → σ → Except String (σ × Nat)

/-- What one call of `insert_values` leaves behind: the connection, the
messages logged, and either the raised exception or the Python return
value (`insert_values` has no `return value` statement, so a successful
call returns `None`, modelled as `Option.none`). -/
structure InsertOutcome (σ : Type) where
  conn : Conn σ
  logs : List String
  result : Except PyErr (Option Nat)

/-- `PostgresWrapper.insert_values`: guard the empty batch, validate the
column sets, assemble the statement, execute it; commit on success,
roll back and re-raise on an engine failure. -/
def insert_values {σ : Type} (E : Engine σ) (conn : Conn σ) (table : String)
    (rows : List Row) (columns_to_insert : Option (List String))
    (unique_columns : Option (List ConflictEntry))
    (norm_values : Option (List (String × NormRef)))
    (custom_columns_types : Option (List (String × String)))
    (schema_name : String) : InsertOutcome σ :=
  if rows.isEmpty then
    ⟨conn, ["No values provided to insert into " ++ table ++ "."], .ok none⟩
  else
    match validate_columns rows with
    | .error e => ⟨conn, [], .error e⟩
    | .ok _ =>
      match insert_values_query table rows columns_to_insert unique_columns
          norm_values custom_columns_types schema_name with
      | .error e => ⟨conn, [], .error e⟩
      | .ok (sql, params) =>
        match E sql params conn.current with
        | .ok (s, n) =>
          ⟨⟨s, s⟩, ["Inserted " ++ natDecimal n ++ " new rows into " ++ table ++ "."], .ok none⟩
        | .error d =>
          ⟨⟨conn.durable, conn.durable⟩,
            ["An error occurred while inserting into " ++ table ++ ": " ++ d],
            .error (.engine d)⟩

/-! ### Basic lemmas: decimal rendering -/

/-- Equality of `Except` values is decidable (used only to evaluate the
model on concrete inputs). -/
instance {ε α : Type} [DecidableEq ε] [DecidableEq α] : DecidableEq (Except ε α) :=
  fun a b =>
    match a, b with
    | .ok x, .ok y =>
      if h : x = y then .isTrue (by rw [h]) else .isFalse (by intro hc; injection hc; contradiction)
    | .error x, .error y =>
      if h : x = y then .isTrue (by rw [h]) else .isFalse (by intro hc; injection hc; contradiction)
    | .ok _, .error _ => .isFalse (by intro hc; injection hc)
    | .error _, .ok _ => .isFalse (by intro hc; injection hc)

/-- Decimal value of a digit string, inverse of `natDigits`. -/
def digitsVal (l : List Char) : Nat :=
  l.foldl (fun a c => 10 * a + (c.toNat - 48)) 0

theorem digitChar_toNat (d : Nat) (h : d < 10) : (digitChar d).toNat = 48 + d := by
  interval_cases d <;> decide

theorem digitsVal_append_one (l : List Char) (c : Char) :
    digitsVal (l ++ [c]) = 10 * digitsVal l + (c.toNat - 48) := by
  simp [digitsVal, List.foldl_append]

theorem digitsVal_natDigitsAux (fuel : Nat) :
    ∀ n : Nat, n < fuel → digitsVal (natDigitsAux fuel n) = n := by
  induction fuel with
  | zero => intro n h; omega
  | succ f ih =>
    intro n h
    by_cases h10 : n < 10
    · simp only [natDigitsAux, if_pos h10]
      simp [digitsVal, digitChar_toNat n h10]
    · simp only [natDigitsAux, if_neg h10]
      have hn : 0 < n := by omega
      have hdiv : n / 10 < n := Nat.div_lt_self hn (by omega)
      have hf : n / 10 < f := by omega
      rw [digitsVal_append_one, ih (n / 10) hf, digitChar_toNat (n % 10) (Nat.mod_lt n (by omega))]
      omega

theorem digitsVal_natDigits (n : Nat) : digitsVal (natDigits n) = n :=
  digitsVal_natDigitsAux (n + 1) n (Nat.lt_succ_self n)

theorem natDigits_inj {a b : Nat} (h : natDigits a = natDigits b) : a = b := by
  have := congrArg digitsVal h
  rwa [digitsVal_natDigits, digitsVal_natDigits] at this

theorem natDigitsAux_all_digits (fuel : Nat) :
    ∀ n : Nat, ∀ c ∈ natDigitsAux fuel n, ∃ d, d < 10 ∧ c = digitChar d := by
  induction fuel with
  | zero => intro n c hc; simp [natDigitsAux] at hc
  | succ f ih =>
    intro n c hc
    by_cases h10 : n < 10
    · simp only [natDigitsAux, if_pos h10, List.mem_singleton] at hc
      exact ⟨n, h10, hc⟩
    · simp only [natDigitsAux, if_neg h10, List.mem_append, List.mem_singleton] at hc
      rcases hc with hc | hc
      · exact ih (n / 10) c hc
      · exact ⟨n % 10, Nat.mod_lt n (by omega), hc⟩

theorem digitChar_ne_underscore (d : Nat) (h : d < 10) : digitChar d ≠ Char.ofNat 95 := by
  intro hc
  have := congrArg Char.toNat hc
  rw [digitChar_toNat d h] at this
  have h95 : (Char.ofNat 95).toNat = 95 := by decide
  omega

theorem natDigits_no_underscore (n : Nat) : Char.ofNat 95 ∉ natDigits n := by
  intro hmem
  obtain ⟨d, hd, hc⟩ := natDigitsAux_all_digits (n + 1) n _ hmem
  exact digitChar_ne_underscore d hd hc.symm

/-- In `a1 ++ sep :: b1 = a2 ++ sep :: b2`, when neither `a1` nor `a2`
contains the separator, the decomposition is unique. -/
theorem sep_split {sep : Char} (a1 : List Char) :
    ∀ a2 b1 b2 : List Char, sep ∉ a1 → sep ∉ a2 →
    a1 ++ sep :: b1 = a2 ++ sep :: b2 → a1 = a2 ∧ b1 = b2 := by
  induction a1 with
  | nil =>
    intro a2 b1 b2 _ h2 h
    cases a2 with
    | nil => simp at h; exact ⟨rfl, h⟩
    | cons c a2t =>
      simp at h
      have hmem : sep ∈ c :: a2t := by
        rw [← h.1]; exact List.mem_cons_self sep a2t
      exact absurd hmem h2
  | cons c a1t ih =>
    intro a2 b1 b2 h1 h2 h
    cases a2 with
    | nil =>
      simp at h
      have hmem : sep ∈ c :: a1t := by
        rw [h.1]; exact List.mem_cons_self sep a1t
      exact absurd hmem h1
    | cons c2 a2t =>
      simp at h
      obtain ⟨hc, ht⟩ := h
      have := ih a2t b1 b2 (fun hm => h1 (List.mem_cons_of_mem c hm))
        (fun hm => h2 (List.mem_cons_of_mem c2 hm)) ht
      exact ⟨by rw [hc, this.1], this.2⟩

theorem strData_append (a b : String) : (a ++ b).data = a.data ++ b.data := rfl

theorem tableAlias_data (n : String) (i : Nat) :
    (tableAlias n i).data = n.data ++ Char.ofNat 95 :: natDigits i := by
  show (n ++ "_" ++ natDecimal i).data = _
  rw [strData_append, strData_append]
  have h1 : "_".data = [Char.ofNat 95] := by decide
  have h2 : (natDecimal i).data = natDigits i := rfl
  rw [h1, h2, List.append_assoc]
  rfl

/-- Two distinct join indices always give distinct table aliases,
whatever the two reference table names are: the digits after the last
underscore recover the index. -/
theorem tableAlias_inj_idx {n1 n2 : String} {i j : Nat}
    (h : tableAlias n1 i = tableAlias n2 j) : i = j := by
  have hd := congrArg String.data h
  rw [tableAlias_data, tableAlias_data] at hd
  have hrev := congrArg List.reverse hd
  simp only [List.reverse_append, List.reverse_cons] at hrev
  rw [List.append_assoc, List.append_assoc] at hrev
  simp only [List.singleton_append] at hrev
  have hsplit := sep_split ((natDigits i).reverse) ((natDigits j).reverse)
    (n1.data.reverse) (n2.data.reverse)
    (by intro hm; exact natDigits_no_underscore i (List.mem_reverse.mp hm))
    (by intro hm; exact natDigits_no_underscore j (List.mem_reverse.mp hm)) hrev
  have : natDigits i = natDigits j := by
    have := congrArg List.reverse hsplit.1
    simpa using this
  exact natDigits_inj this

/-! ### Lemmas: placeholder counting -/

theorem countPS_pct_s (t : List Char) : countPS (Char.ofNat 37 :: Char.ofNat 115 :: t) = countPS t + 1 := rfl

theorem countPS_comma (t : List Char) : countPS (Char.ofNat 44 :: t) = countPS t := rfl

theorem countPS_space (t : List Char) : countPS (Char.ofNat 32 :: t) = countPS t := rfl

theorem countPS_lpar (t : List Char) : countPS (Char.ofNat 40 :: t) = countPS t := rfl

theorem countPS_rpar (t : List Char) : countPS (Char.ofNat 41 :: t) = countPS t := rfl

theorem countPS_join_inner (k : Nat) (tail : List Char) :
    countPS ((strJoin ", " (List.replicate k "%s")).data ++ tail) = k + countPS tail := by
  induction k generalizing tail with
  | zero => simp [strJoin, countPS]
  | succ k ih =>
    cases k with
    | zero =>
      show countPS (Char.ofNat 37 :: Char.ofNat 115 :: tail) = 1 + countPS tail
      rw [countPS_pct_s]; omega
    | succ k2 =>
      show countPS (("%s" ++ ", " ++ strJoin ", " (List.replicate (k2 + 1) "%s")).data ++ tail) = _
      rw [strData_append, strData_append]
      rw [List.append_assoc, List.append_assoc]
      simp only [List.cons_append, List.nil_append]
      rw [countPS_pct_s, countPS_comma, countPS_space, ih]
      omega

theorem countPS_row (m : Nat) (tail : List Char) :
    countPS ((rowPlaceholders m).data ++ tail) = m + countPS tail := by
  show countPS (("(" ++ strJoin ", " (List.replicate m "%s") ++ ")").data ++ tail) = _
  rw [strData_append, strData_append, List.append_assoc, List.append_assoc]
  simp only [List.cons_append, List.nil_append]
  rw [countPS_lpar, countPS_join_inner, countPS_rpar]

theorem countPS_values_aux (n m : Nat) (tail : List Char) :
    countPS ((valuesPlaceholders n m).data ++ tail) = n * m + countPS tail := by
  induction n generalizing tail with
  | zero => simp [valuesPlaceholders, strJoin, countPS]
  | succ n ih =>
    cases n with
    | zero =>
      show countPS ((rowPlaceholders m).data ++ tail) = 1 * m + countPS tail
      rw [countPS_row]; omega
    | succ n2 =>
      show countPS ((rowPlaceholders m ++ ", " ++
        strJoin ", " (List.replicate (n2 + 1) (rowPlaceholders m))).data ++ tail) = _
      rw [strData_append, strData_append, List.append_assoc, List.append_assoc]
      rw [countPS_row]
      simp only [List.cons_append, List.nil_append]
      rw [countPS_comma, countPS_space]
      have := ih tail
      rw [show (valuesPlaceholders (n2 + 1) m) =
        strJoin ", " (List.replicate (n2 + 1) (rowPlaceholders m)) from rfl] at this
      rw [this]; ring

/-- The inline row source contains exactly `n * m` positional
placeholders. -/
theorem countPS_values (n m : Nat) :
    countPS (valuesPlaceholders n m).data = n * m := by
  have := countPS_values_aux n m []
  simpa [countPS] using this

/-! ### Lemmas: parameter flattening -/

theorem rowParams_ok {row : Row} {cols : List String} {l : List Value}
    (h : rowParams row cols = .ok l) :
    l.length = cols.length ∧
    ∀ j (hj : j < cols.length), ∃ v p,
      assocLookup row (cols.get ⟨j, hj⟩) = some v ∧
      serializeParam v = .ok p ∧ l[j]? = some p := by
  induction cols generalizing l with
  | nil =>
    simp only [rowParams] at h
    injection h with h
    subst h
    exact ⟨rfl, fun j hj => absurd hj (by simp)⟩
  | cons c cs ih =>
    simp only [rowParams] at h
    split at h
    · exact Except.noConfusion h
    · rename_i v hl
      split at h
      · exact Except.noConfusion h
      · rename_i x hs
        split at h
        · exact Except.noConfusion h
        · rename_i xs hr
          injection h with h
          subst h
          obtain ⟨hlen, hget⟩ := ih hr
          refine ⟨by simp [hlen], ?_⟩
          intro j hj
          cases j with
          | zero => exact ⟨v, x, hl, hs, by simp⟩
          | succ j2 =>
            obtain ⟨v2, p2, ha, hsp, hg⟩ := hget j2 (by simpa using hj)
            exact ⟨v2, p2, ha, hsp, by simpa using hg⟩

theorem paramsList_ok {cols : List String} {rows : List Row} {params : List Value}
    (h : paramsList cols rows = .ok params) :
    params.length = rows.length * cols.length ∧
    ∀ k j (hk : k < rows.length) (hj : j < cols.length), ∃ v p,
      assocLookup (rows.get ⟨k, hk⟩) (cols.get ⟨j, hj⟩) = some v ∧
      serializeParam v = .ok p ∧ params[k * cols.length + j]? = some p := by
  induction rows generalizing params with
  | nil =>
    simp only [paramsList] at h
    injection h with h
    subst h
    exact ⟨by simp, fun k j hk => absurd hk (by simp)⟩
  | cons r rs ih =>
    simp only [paramsList] at h
    split at h
    · exact Except.noConfusion h
    · rename_i x hr
      split at h
      · exact Except.noConfusion h
      · rename_i xs hp
        injection h with h
        subst h
        obtain ⟨hxlen, hxget⟩ := rowParams_ok hr
        obtain ⟨hlen, hget⟩ := ih hp
        constructor
        · simp [hxlen, hlen]; ring
        · intro k j hk hj
          cases k with
          | zero =>
            obtain ⟨v, p, ha, hs, hg⟩ := hxget j hj
            refine ⟨v, p, ha, hs, ?_⟩
            rw [List.getElem?_append_left (by omega)]
            simpa using hg
          | succ k2 =>
            obtain ⟨v, p, ha, hs, hg⟩ := hget k2 j (by simpa using hk) hj
            refine ⟨v, p, ha, hs, ?_⟩
            rw [List.getElem?_append_right (by
              rw [hxlen]
              have hmul : (k2 + 1) * cols.length = k2 * cols.length + cols.length := by ring
              omega)]
            rw [hxlen]
            have harith : (k2 + 1) * cols.length + j - cols.length = k2 * cols.length + j := by
              have : (k2 + 1) * cols.length = k2 * cols.length + cols.length := by ring
              omega
            rw [harith]
            exact hg

/-! ### Lemmas: column validation -/

theorem validate_columns_from_err (cols : List String) (rows : List Row) :
    ∀ (k idx : Nat) (hidx : idx < rows.length),
    ((rows.take idx).all (fun row => (missingColumns cols row).isEmpty)) = true →
    (missingColumns cols (rows.get ⟨idx, hidx⟩)).isEmpty = false →
    validate_columns_from cols k rows = .error (.valueError ("Value at index " ++
      natDecimal (k + idx) ++ " is missing columns: " ++
      strJoin ", " (missingColumns cols (rows.get ⟨idx, hidx⟩)))) := by
  induction rows with
  | nil => intro k idx hidx; simp at hidx
  | cons r rs ih =>
    intro k idx hidx hprev hbad
    cases idx with
    | zero =>
      have hr : (r :: rs).get ⟨0, hidx⟩ = r := rfl
      rw [hr] at hbad
      simp only [validate_columns_from, hbad]
      rw [hr]
      simp
    | succ i =>
      have hhead : (missingColumns cols r).isEmpty = true := by
        simp only [List.take_succ_cons, List.all_cons, Bool.and_eq_true] at hprev
        exact hprev.1
      have hrest : ((rs.take i).all (fun row => (missingColumns cols row).isEmpty)) = true := by
        simp only [List.take_succ_cons, List.all_cons, Bool.and_eq_true] at hprev
        exact hprev.2
      have hg : (r :: rs).get ⟨i + 1, hidx⟩ = rs.get ⟨i, by simpa using hidx⟩ := rfl
      rw [hg] at hbad ⊢
      simp only [validate_columns_from, hhead]
      have := ih (k + 1) i (by simpa using hidx) hrest hbad
      rw [show k + (i + 1) = k + 1 + i by omega]
      exact this

/-! ### Lemmas: inversion of the query builder -/

theorem insert_values_query_ok_inv {table : String} {rows : List Row}
    {cti : Option (List String)} {uniq : Option (List ConflictEntry)}
    {norm : Option (List (String × NormRef))} {types : Option (List (String × String))}
    {schema : String} {sql : String} {params : List Value}
    (h : insert_values_query table rows cti uniq norm types schema = .ok (sql, params)) :
    ∃ parts, queryParts table rows cti uniq norm types schema = .ok (parts, params) ∧
      sql = strJoin "\n" parts := by
  simp only [insert_values_query] at h
  split at h
  · exact Except.noConfusion h
  · rename_i parts params2 heq
    injection h with h
    injection h with h1 h2
    exact ⟨parts, by rw [heq, h2], h1.symm⟩

theorem queryParts_ok_inv {table : String} {rows : List Row}
    {cti : Option (List String)} {uniq : Option (List ConflictEntry)}
    {norm : Option (List (String × NormRef))} {types : Option (List (String × String))}
    {schema : String} {parts : List String} {params : List Value}
    (h : queryParts table rows cti uniq norm types schema = .ok (parts, params)) :
    ∃ r0 rest, rows = r0 :: rest ∧
      validate_values rows = .ok () ∧
      paramsList (rowKeys r0) rows = .ok params := by
  cases rows with
  | nil => exact Except.noConfusion h
  | cons r0 rest =>
    refine ⟨r0, rest, rfl, ?_⟩
    simp only [queryParts] at h
    split at h
    · exact Except.noConfusion h
    · rename_i normPart heqn
      split at h
      · exact Except.noConfusion h
      · rename_i u hvv
        split at h
        · exact Except.noConfusion h
        · rename_i params1 heqp
          split at h
          · exact Except.noConfusion h
          · rename_i exclPart heqe
            injection h with h
            injection h with h1 h2
            exact ⟨by rw [hvv], by rw [heqp, h2]⟩

/-! ### Lemmas: unfolding the executor -/

/-- `insert_values` on a non-empty batch, unfolded past the empty-batch
guard. -/
theorem insert_values_cons {σ : Type} (E : Engine σ) (conn : Conn σ) (table : String)
    (r : Row) (rs : List Row) (cti : Option (List String))
    (uniq : Option (List ConflictEntry)) (norm : Option (List (String × NormRef)))
    (types : Option (List (String × String))) (schema : String) :
    insert_values E conn table (r :: rs) cti uniq norm types schema =
      match validate_columns (r :: rs) with
      | .error e => ⟨conn, [], .error e⟩
      | .ok _ =>
        match insert_values_query table (r :: rs) cti uniq norm types schema with
        | .error e => ⟨conn, [], .error e⟩
        | .ok (sql, params) =>
          match E sql params conn.current with
          | .ok (s, n) =>
            ⟨⟨s, s⟩, ["Inserted " ++ natDecimal n ++ " new rows into " ++ table ++ "."], .ok none⟩
          | .error d =>
            ⟨⟨conn.durable, conn.durable⟩,
              ["An error occurred while inserting into " ++ table ++ ": " ++ d],
              .error (.engine d)⟩ := rfl

/-- `insert_values` on a batch that validates and builds successfully:
only the engine call remains. -/
theorem insert_values_run {σ : Type} (E : Engine σ) (conn : Conn σ) (table : String)
    (r : Row) (rs : List Row) (cti : Option (List String))
    (uniq : Option (List ConflictEntry)) (norm : Option (List (String × NormRef)))
    (types : Option (List (String × String))) (schema : String)
    (sql : String) (params : List Value)
    (hval : validate_columns (r :: rs) = .ok ())
    (hq : insert_values_query table (r :: rs) cti uniq norm types schema = .ok (sql, params)) :
    insert_values E conn table (r :: rs) cti uniq norm types schema =
      match E sql params conn.current with
      | .ok (s, n) =>
        ⟨⟨s, s⟩, ["Inserted " ++ natDecimal n ++ " new rows into " ++ table ++ "."], .ok none⟩
      | .error d =>
        ⟨⟨conn.durable, conn.durable⟩,
          ["An error occurred while inserting into " ++ table ++ ": " ++ d],
          .error (.engine d)⟩ := by
  rw [insert_values_cons, hval, hq]

/-! ### Concrete fixtures used by witnesses and counterexamples -/

/-- An engine that accepts any statement: bumps the state and reports
one affected row. -/
def E1 : Engine Nat := fun _ _ s => .ok (s + 1, 1)

/-- An engine that rejects every statement with a fixed diagnostic. -/
def EFail : Engine Nat := fun _ _ _ => .error "connection lost"

/-! ### Claims about the executor -/

/-- C8: for the empty batch, `insert_values` is a no-op that is not an
error: whatever the engine and the connection state, it returns `None`
without raising, logs the informational message, leaves the connection
(and hence the target table) untouched, and — being independent of the
engine `E` — builds and executes no statement and opens no
transaction. -/
theorem C8_empty_batch_noop (σ : Type) (E : Engine σ) (conn : Conn σ) (table : String)
    (cti : Option (List String)) (uniq : Option (List ConflictEntry))
    (norm : Option (List (String × NormRef))) (types : Option (List (String × String)))
    (schema : String) :
    insert_values E conn table [] cti uniq norm types schema =
      ⟨conn, ["No values provided to insert into " ++ table ++ "."], .ok none⟩ := rfl

/-- C1 counterexample: a successful one-row insert whose engine reports
`rowcount = 1` still returns `None` (the Python method body has no
`return value` statement), not the number of rows inserted. -/
theorem C1_counterexample :
    (insert_values E1 ⟨0, 0⟩ "t" [[("a", .pyInt 1)]] none none none none "public").result
        = .ok none
    ∧ (insert_values E1 ⟨0, 0⟩ "t" [[("a", .pyInt 1)]] none none none none "public").result
        ≠ .ok (some 1) := by
  constructor
  · rfl
  · intro h
    have h2 : (Except.ok (none : Option Nat) : Except PyErr (Option Nat)) = .ok (some 1) := h
    injection h2 with h3
    exact Option.noConfusion h3

/-- C1 amended: for every non-empty batch that validates, builds and
executes successfully, `insert_values` commits the engine state
produced by the statement and logs the engine-reported count of rows
actually inserted, but returns `None` — the count is not returned to
the caller. -/
theorem C1_amended_returns_none {σ : Type} (E : Engine σ) (conn : Conn σ)
    (table : String) (rows : List Row) (cti : Option (List String))
    (uniq : Option (List ConflictEntry)) (norm : Option (List (String × NormRef)))
    (types : Option (List (String × String))) (schema : String) (s : σ) (n : Nat)
    (hne : rows.isEmpty = false)
    (hval : validate_columns rows = .ok ())
    (hq : ∃ sql params, insert_values_query table rows cti uniq norm types schema = .ok (sql, params))
    (hE : ∀ sql params, E sql params conn.current = .ok (s, n)) :
    insert_values E conn table rows cti uniq norm types schema =
      ⟨⟨s, s⟩, ["Inserted " ++ natDecimal n ++ " new rows into " ++ table ++ "."], .ok none⟩ := by
  obtain ⟨sql, params, hq⟩ := hq
  cases rows with
  | nil => exact Bool.noConfusion hne
  | cons r rs =>
    rw [insert_values_run E conn table r rs cti uniq norm types schema sql params hval hq,
      hE sql params]

/-- C1 amended, witness: concrete successful call returning `None` with
the count only in the log. -/
theorem C1_amended_witness :
    insert_values E1 ⟨0, 0⟩ "t" [[("a", .pyInt 1)]] none none none none "public" =
      ⟨⟨1, 1⟩, ["Inserted 1 new rows into t."], .ok none⟩ :=
  C1_amended_returns_none E1 ⟨0, 0⟩ "t" [[("a", .pyInt 1)]] none none none none "public" 1 1
    rfl rfl ⟨_, _, rfl⟩ (fun _ _ => rfl)

/-- C2: when the engine rejects the assembled statement, the
transaction is rolled back — the connection ends with both its durable
and current state equal to the durable state from before the call, so
the target table is unchanged and nothing of the batch is applied — and
the call re-raises an error carrying the original engine diagnostic
verbatim, never swallowing it. -/
theorem C2_engine_failure_rolls_back {σ : Type} (E : Engine σ) (conn : Conn σ)
    (table : String) (rows : List Row) (cti : Option (List String))
    (uniq : Option (List ConflictEntry)) (norm : Option (List (String × NormRef)))
    (types : Option (List (String × String))) (schema : String) (d : String)
    (hne : rows.isEmpty = false)
    (hval : validate_columns rows = .ok ())
    (hq : ∃ sql params, insert_values_query table rows cti uniq norm types schema = .ok (sql, params))
    (hE : ∀ sql params, E sql params conn.current = .error d) :
    insert_values E conn table rows cti uniq norm types schema =
      ⟨⟨conn.durable, conn.durable⟩,
        ["An error occurred while inserting into " ++ table ++ ": " ++ d],
        .error (.engine d)⟩ := by
  obtain ⟨sql, params, hq⟩ := hq
  cases rows with
  | nil => exact Bool.noConfusion hne
  | cons r rs =>
    rw [insert_values_run E conn table r rs cti uniq norm types schema sql params hval hq,
      hE sql params]

/-- C2 witness: a concrete failing engine; the batch is rolled back and
the diagnostic is re-raised. -/
theorem C2_witness :
    insert_values EFail ⟨7, 9⟩ "t" [[("a", .pyInt 1)]] none none none none "public" =
      ⟨⟨7, 7⟩, ["An error occurred while inserting into t: connection lost"],
        .error (.engine "connection lost")⟩ :=
  C2_engine_failure_rolls_back EFail ⟨7, 9⟩ "t" [[("a", .pyInt 1)]] none none none none "public"
    "connection lost" rfl rfl ⟨_, _, rfl⟩ (fun _ _ => rfl)

/-- C3 counterexample: row 1 carries an extra column `y` that row 0
lacks, so the symmetric difference of the two column sets is non-empty
(`y` is in row 1 and not in row 0); yet `_validate_columns` only checks
`set(columns) - set(row.keys())`, so validation passes, a statement is
built and executed, and the call succeeds — no `SchemaMismatch`-style
error is raised. -/
theorem C3_counterexample :
    ("y" ∈ rowKeys [("x", .pyInt 1), ("y", .pyInt 2)]
      ∧ "y" ∉ rowKeys [("x", Value.pyInt 1)])
    ∧ validate_columns [[("x", .pyInt 1)], [("x", .pyInt 1), ("y", .pyInt 2)]] = .ok ()
    ∧ insert_values E1 ⟨0, 0⟩ "t" [[("x", .pyInt 1)], [("x", .pyInt 1), ("y", .pyInt 2)]]
        none none none none "public" =
      ⟨⟨1, 1⟩, ["Inserted 1 new rows into t."], .ok none⟩ :=
  ⟨⟨by decide, by decide⟩, by decide, rfl⟩

/-- C3 amended: if some row of the batch is missing columns of the
first row (one-sided difference — extra columns are not detected), and
`idx` is the first such row, the call fails with a `ValueError` naming
the row index and the missing columns, before any statement is built or
executed: the connection is untouched whatever the engine is. -/
theorem C3_amended_missing_columns {σ : Type} (E : Engine σ) (conn : Conn σ)
    (table : String) (r0 : Row) (rows : List Row) (idx : Nat)
    (cti : Option (List String)) (uniq : Option (List ConflictEntry))
    (norm : Option (List (String × NormRef))) (types : Option (List (String × String)))
    (schema : String)
    (hidx : idx < (r0 :: rows).length)
    (hprev : ((r0 :: rows).take idx).all
      (fun row => (missingColumns (rowKeys r0) row).isEmpty) = true)
    (hbad : (missingColumns (rowKeys r0) ((r0 :: rows).get ⟨idx, hidx⟩)).isEmpty = false) :
    insert_values E conn table (r0 :: rows) cti uniq norm types schema =
      ⟨conn, [], .error (.valueError ("Value at index " ++ natDecimal idx ++
        " is missing columns: " ++
        strJoin ", " (missingColumns (rowKeys r0) ((r0 :: rows).get ⟨idx, hidx⟩))))⟩ := by
  have hv := validate_columns_from_err (rowKeys r0) (r0 :: rows) 0 idx hidx hprev hbad
  rw [Nat.zero_add] at hv
  have hv2 : validate_columns (r0 :: rows) = .error (.valueError ("Value at index " ++
      natDecimal idx ++ " is missing columns: " ++
      strJoin ", " (missingColumns (rowKeys r0) ((r0 :: rows).get ⟨idx, hidx⟩)))) := hv
  rw [insert_values_cons, hv2]

/-- C3 amended, witness: a batch whose second row misses column `y`
fails with the naming error and leaves the connection untouched. -/
theorem C3_amended_witness :
    insert_values E1 ⟨0, 0⟩ "t" ([("x", Value.pyInt 1), ("y", Value.pyInt 2)] :: [[("x", Value.pyInt 1)]])
        none none none none "public" =
      ⟨⟨0, 0⟩, [], .error (.valueError "Value at index 1 is missing columns: y")⟩ :=
  C3_amended_missing_columns E1 ⟨0, 0⟩ "t" [("x", Value.pyInt 1), ("y", Value.pyInt 2)]
    [[("x", Value.pyInt 1)]] 1 none none none none "public" (by decide) (by decide) (by decide)

/-! ### Claim C4: projection alignment -/

/-- C4: the insert target-column list and the source-select list are
both maps over `selectedColumnsToInsert` — the `columns_to_insert`
argument when given and non-empty (independently of the batch columns),
all batch columns otherwise — so the two lists have the same length and
their i-th entries both denote the i-th selected column; a column with
a type override appears in the select list with an explicit cast
`"col"::type`, and one without appears unchanged. -/
theorem C4_projection_alignment (cti : Option (List String)) (columns : List String)
    (types : List (String × String)) :
    (insertColsList (selectedColumnsToInsert cti columns)).length
        = (selectedColumnsToInsert cti columns).length
    ∧ (insertValuesList types (selectedColumnsToInsert cti columns)).length
        = (selectedColumnsToInsert cti columns).length
    ∧ (∀ i (hi : i < (selectedColumnsToInsert cti columns).length),
        (insertColsList (selectedColumnsToInsert cti columns))[i]?
            = some (quoteId ((selectedColumnsToInsert cti columns).get ⟨i, hi⟩))
        ∧ (insertValuesList types (selectedColumnsToInsert cti columns))[i]?
            = some (castColumnExpr types ((selectedColumnsToInsert cti columns).get ⟨i, hi⟩)))
    ∧ selectedColumnsToInsert none columns = columns
    ∧ (∀ l : List String, l ≠ [] → ∀ columns2 : List String,
        selectedColumnsToInsert (some l) columns2 = l)
    ∧ (∀ c t, assocLookup types c = some t →
        castColumnExpr types c = quoteId c ++ "::" ++ t)
    ∧ (∀ c, assocLookup types c = none → castColumnExpr types c = quoteId c) := by
  refine ⟨by simp [insertColsList], by simp [insertValuesList], ?_, rfl, ?_, ?_, ?_⟩
  · intro i hi
    constructor
    · rw [insertColsList, List.getElem?_map, List.getElem?_eq_getElem hi]
      simp [List.get_eq_getElem]
    · rw [insertValuesList, List.getElem?_map, List.getElem?_eq_getElem hi]
      simp [List.get_eq_getElem]
  · intro l hl columns2
    cases l with
    | nil => exact absurd rfl hl
    | cons a as => rfl
  · intro c t h
    simp [castColumnExpr, h]
  · intro c h
    simp [castColumnExpr, h]

/-- C4 witness: `columns_to_insert = [c2, c1]` over a batch with
columns `[c1, c2]` and an override on `c2`. -/
theorem C4_witness :
    (insertColsList (selectedColumnsToInsert (some ["c2", "c1"]) ["c1", "c2"]))[0]?
        = some (quoteId "c2")
    ∧ (insertValuesList [("c2", "JSONB")]
        (selectedColumnsToInsert (some ["c2", "c1"]) ["c1", "c2"]))[0]?
        = some (castColumnExpr [("c2", "JSONB")] "c2")
    ∧ selectedColumnsToInsert none ["c1", "c2"] = ["c1", "c2"]
    ∧ castColumnExpr [("c2", "JSONB")] "c2" = quoteId "c2" ++ "::" ++ "JSONB" := by
  have h := C4_projection_alignment (some ["c2", "c1"]) ["c1", "c2"] [("c2", "JSONB")]
  have hi := h.2.2.1 0 (by decide)
  exact ⟨hi.1, hi.2, h.2.2.2.1, h.2.2.2.2.2.1 "c2" "JSONB" (by decide)⟩

/-! ### Claim C5: placeholders and parameter flattening -/

/-- The statement text produced by the query builder depends only on
the shape of the batch (its length and its column names), never on the
row values. -/
theorem queryParts_text_congr {table : String} {cti : Option (List String)}
    {uniq : Option (List ConflictEntry)} {norm : Option (List (String × NormRef))}
    {types : Option (List (String × String))} {schema : String}
    {r0 : Row} {rest : List Row} {r0b : Row} {restb : List Row}
    {parts : List String} {params : List Value} {partsb : List String} {paramsb : List Value}
    (hkeys : rowKeys r0b = rowKeys r0)
    (hlen : (r0b :: restb).length = (r0 :: rest).length)
    (h : queryParts table (r0 :: rest) cti uniq norm types schema = .ok (parts, params))
    (hb : queryParts table (r0b :: restb) cti uniq norm types schema = .ok (partsb, paramsb)) :
    partsb = parts := by
  simp only [queryParts] at h hb
  rw [hkeys, hlen] at hb
  split at h
  · exact Except.noConfusion h
  · rename_i normPart heqn
    split at hb
    · exact Except.noConfusion hb
    · rename_i normPartb heqnb
      rw [heqn] at heqnb
      injection heqnb with heqnb
      subst heqnb
      split at h
      · exact Except.noConfusion h
      · split at hb
        · exact Except.noConfusion hb
        · split at h
          · exact Except.noConfusion h
          · rename_i params1 heqp
            split at hb
            · exact Except.noConfusion hb
            · rename_i params1b heqpb
              split at h
              · exact Except.noConfusion h
              · rename_i exclPart heqe
                split at hb
                · exact Except.noConfusion hb
                · rename_i exclPartb heqeb
                  rw [heqe] at heqeb
                  injection heqeb with heqeb
                  subst heqeb
                  injection h with h
                  injection hb with hb
                  injection h with h1 h2
                  injection hb with hb1 hb2
                  rw [← h1, ← hb1]

/-- C5: for a batch of `N` rows with `M` columns (the column list of
row 0), (i) the inline row source generated into the statement contains
exactly `N * M` `%s` placeholders; (ii) the parameter tuple has length
`N * M`; (iii) the parameter at position `k * M + j` is the value of
row `k` under batch column `j`, serialized to its JSON text by
`json.dumps` when it is a nested mapping/sequence and passed through
unchanged otherwise — i.e. the tuple is flattened row-major; and
(iv) the statement text is a function of the batch shape only: any
batch with the same column names per row yields the identical SQL text,
so no row value is ever interpolated into the statement. -/
theorem C5_placeholders_params (table : String) (r0 : Row) (rest : List Row)
    (cti : Option (List String)) (uniq : Option (List ConflictEntry))
    (norm : Option (List (String × NormRef))) (types : Option (List (String × String)))
    (schema : String) (sql : String) (params : List Value)
    (hq : insert_values_query table (r0 :: rest) cti uniq norm types schema = .ok (sql, params)) :
    countPS (valuesPlaceholders (r0 :: rest).length (rowKeys r0).length).data
        = (r0 :: rest).length * (rowKeys r0).length
    ∧ params.length = (r0 :: rest).length * (rowKeys r0).length
    ∧ (∀ k j (hk : k < (r0 :: rest).length) (hj : j < (rowKeys r0).length), ∃ v p,
        assocLookup ((r0 :: rest).get ⟨k, hk⟩) ((rowKeys r0).get ⟨j, hj⟩) = some v ∧
        serializeParam v = .ok p ∧
        params[k * (rowKeys r0).length + j]? = some p)
    ∧ (∀ (rows2 : List Row) (sql2 : String) (params2 : List Value),
        rows2.map rowKeys = (r0 :: rest).map rowKeys →
        insert_values_query table rows2 cti uniq norm types schema = .ok (sql2, params2) →
        sql2 = sql) := by
  obtain ⟨parts, hqp, hsql⟩ := insert_values_query_ok_inv hq
  obtain ⟨r0x, restx, hrows, hvv, hpl⟩ := queryParts_ok_inv hqp
  injection hrows with hx1 hx2
  subst hx1
  subst hx2
  obtain ⟨hlen, hget⟩ := paramsList_ok hpl
  refine ⟨countPS_values _ _, hlen, hget, ?_⟩
  intro rows2 sql2 params2 hk2 hq2
  obtain ⟨parts2, hqp2, hsql2⟩ := insert_values_query_ok_inv hq2
  cases rows2 with
  | nil => simp at hk2
  | cons r0b restb =>
    have hkeys : rowKeys r0b = rowKeys r0 := by
      simp only [List.map_cons] at hk2
      injection hk2 with ha hb
    have hlen2 : (r0b :: restb).length = (r0 :: rest).length := by
      have := congrArg List.length hk2
      simpa using this
    have hparts := queryParts_text_congr hkeys hlen2 hqp hqp2
    rw [hsql2, hsql, hparts]

/-- C5 witness: a 2×2 batch with a nested dict (serialized to JSON
text) and a `None`; parameter 3 = row 1, column 1, row-major. -/
theorem C5_witness :
    countPS (valuesPlaceholders 2 2).data = 2 * 2
    ∧ ∃ v p,
        assocLookup ([("a", Value.pyInt 2), ("b", Value.pyNull)] : Row) "b" = some v ∧
        serializeParam v = .ok p ∧
        ([Value.pyInt 1, Value.pyStr "\x7b\"k\": \"v\"\x7d", Value.pyInt 2,
          Value.pyNull])[1 * 2 + 1]? = some p := by
  have h := @C5_placeholders_params "t"
    [("a", Value.pyInt 1), ("b", Value.pyDict [("k", Value.pyStr "v")])]
    [[("a", Value.pyInt 2), ("b", Value.pyNull)]]
    none none none none "public" _ _ rfl
  exact ⟨h.1, h.2.2.1 1 1 (by decide) (by decide)⟩

/-! ### Claim C6: deduplication clause -/

theorem strJoin_append_singleton (sep x : String) (xs : List String) (h : xs ≠ []) :
    strJoin sep (xs ++ [x]) = strJoin sep xs ++ sep ++ x := by
  induction xs with
  | nil => exact absurd rfl h
  | cons a t ih =>
    cases t with
    | nil => rfl
    | cons b t2 =>
      have := ih (by simp)
      show a ++ sep ++ strJoin sep ((b :: t2) ++ [x]) = a ++ sep ++ strJoin sep (b :: t2) ++ sep ++ x
      rw [this, ← String.append_assoc, ← String.append_assoc]

/-- With uniqueness constraints present, the built statement is the
no-deduplication statement plus exactly the exclusion clause, over the
same parameters. -/
theorem queryParts_unique_append {table : String} {rows : List Row}
    {cti : Option (List String)} {norm : Option (List (String × NormRef))}
    {types : Option (List (String × String))} {schema : String}
    {entries : List ConflictEntry} {parts0 : List String} {params0 : List Value}
    {excl : String}
    (hne : entries.isEmpty = false)
    (h0 : queryParts table rows cti none norm types schema = .ok (parts0, params0))
    (hex : get_exclusion_clause schema table
      (if (norm.getD []).isEmpty then cteNameOrig else cteNameNorm) entries = .ok excl) :
    queryParts table rows cti (some entries) norm types schema
      = .ok (parts0 ++ [excl], params0) := by
  cases rows with
  | nil => exact Except.noConfusion h0
  | cons r0 rest =>
    simp only [queryParts] at h0 ⊢
    split at h0
    · exact Except.noConfusion h0
    · rename_i normPart heqn
      split at h0
      · exact Except.noConfusion h0
      · rename_i u hvv
        split at h0
        · exact Except.noConfusion h0
        · rename_i params1 heqp
          split at h0
          · rename_i e heqz
            simp at heqz
          · rename_i exclPart heqz
            simp at heqz
            injection h0 with h0
            injection h0 with h01 h02
            subst h02
            subst heqz
            simp only [Option.getD_some]
            rw [hne, hex]
            rw [← h01]
            simp [Except.map]

theorem queryParts_parts_ne_nil {table : String} {rows : List Row}
    {cti : Option (List String)} {uniq : Option (List ConflictEntry)}
    {norm : Option (List (String × NormRef))} {types : Option (List (String × String))}
    {schema : String} {parts : List String} {params : List Value}
    (h : queryParts table rows cti uniq norm types schema = .ok (parts, params)) :
    parts ≠ [] := by
  cases rows with
  | nil => exact Except.noConfusion h
  | cons r0 rest =>
    simp only [queryParts] at h
    split at h
    · exact Except.noConfusion h
    · split at h
      · exact Except.noConfusion h
      · split at h
        · exact Except.noConfusion h
        · split at h
          · exact Except.noConfusion h
          · injection h with h
            injection h with h1 h2
            rw [← h1]
            simp

/-- C6: with uniqueness constraints supplied, the generated statement
is the no-deduplication statement conjoined (via `WHERE 1=1 AND NOT
EXISTS`) with one exclusion filter against the target table in which
the per-constraint conditions are OR-combined, a composite constraint
contributing the AND of its per-column equalities and a single-column
constraint one equality; the bound parameters are unchanged.  With no
uniqueness constraints supplied (`None`, equivalently an empty list),
the statement contains no deduplication predicate at all. -/
theorem C6_dedup_clause (table : String) (rows : List Row) (cti : Option (List String))
    (norm : Option (List (String × NormRef))) (types : Option (List (String × String)))
    (schema : String) (entries : List ConflictEntry) (sql0 : String)
    (params0 : List Value) (conds : List String)
    (hne : entries.isEmpty = false)
    (h0 : insert_values_query table rows cti none norm types schema = .ok (sql0, params0))
    (hc : conflictConds (if (norm.getD []).isEmpty then cteNameOrig else cteNameNorm) entries
      = .ok conds) :
    get_exclusion_clause schema table
        (if (norm.getD []).isEmpty then cteNameOrig else cteNameNorm) entries
      = .ok ("AND NOT EXISTS (SELECT 1 FROM " ++ quoteId schema ++ "." ++ quoteId table ++
          " p WHERE " ++ strJoin " OR " conds ++ ")")
    ∧ (∀ (l : List String) (src : String), conflictCondition src (ConflictEntry.tup l)
        = .ok (strJoin " AND "
            (l.map (fun col => "p." ++ quoteId col ++ " = " ++ src ++ "." ++ quoteId col))))
    ∧ (∀ (c src : String), conflictCondition src (ConflictEntry.str c)
        = .ok ("p." ++ quoteId c ++ " = " ++ src ++ "." ++ quoteId c))
    ∧ insert_values_query table rows cti (some entries) norm types schema
        = .ok (sql0 ++ "\n" ++ ("AND NOT EXISTS (SELECT 1 FROM " ++ quoteId schema ++ "." ++
            quoteId table ++ " p WHERE " ++ strJoin " OR " conds ++ ")"), params0)
    ∧ insert_values_query table rows cti none norm types schema
        = insert_values_query table rows cti (some []) norm types schema := by
  have hex : get_exclusion_clause schema table
      (if (norm.getD []).isEmpty then cteNameOrig else cteNameNorm) entries
      = .ok ("AND NOT EXISTS (SELECT 1 FROM " ++ quoteId schema ++ "." ++ quoteId table ++
          " p WHERE " ++ strJoin " OR " conds ++ ")") := by
    unfold get_exclusion_clause
    rw [hc]
  obtain ⟨parts0, hqp0, hsql0⟩ := insert_values_query_ok_inv h0
  have hparts := queryParts_unique_append hne hqp0 hex
  have hnn := queryParts_parts_ne_nil hqp0
  refine ⟨hex, fun l src => rfl, fun c src => rfl, ?_, rfl⟩
  simp only [insert_values_query, hparts]
  rw [strJoin_append_singleton _ _ _ hnn, hsql0]

/-- C6 witness: one plain and one composite constraint; and the
`None` call builds the same statement as the empty-list call. -/
theorem C6_witness :
    get_exclusion_clause "public" "t" "new_rows"
        [ConflictEntry.str "a", ConflictEntry.tup ["a", "b"]]
      = .ok ("AND NOT EXISTS (SELECT 1 FROM " ++ quoteId "public" ++ "." ++ quoteId "t" ++
          " p WHERE " ++ strJoin " OR "
            ["(p.\"a\" = new_rows.\"a\")",
             "(p.\"a\" = new_rows.\"a\" AND p.\"b\" = new_rows.\"b\")"] ++ ")")
    ∧ insert_values_query "t" [[("a", Value.pyInt 1)]] none none none none "public"
        = insert_values_query "t" [[("a", Value.pyInt 1)]] none (some []) none none "public" := by
  have h := C6_dedup_clause "t" [[("a", Value.pyInt 1)]] none none none "public"
    [ConflictEntry.str "a", ConflictEntry.tup ["a", "b"]] _ _ _ rfl rfl rfl
  exact ⟨h.1, h.2.2.2.2⟩

/-! ### Claim C7: normalization CTE -/

theorem assocSet_replace_fun (k v k2 v2 : String) :
    (if ((k2, v2) : String × String).1 = k then (k, v) else (k2, v2))
      = if k2 = k then (k, v) else (k2, v2) := rfl

theorem assocLookup_cons (k2 v2 c : String) (t : List (String × String)) :
    assocLookup ((k2, v2) :: t) c = if k2 = c then some v2 else assocLookup t c := rfl

theorem assocLookup_map_replace (m : List (String × String)) (k v : String)
    (h : (assocLookup m k).isSome) :
    assocLookup (m.map (fun p => if p.1 = k then (k, v) else p)) k = some v := by
  induction m with
  | nil => simp [assocLookup] at h
  | cons p t ih =>
    obtain ⟨k2, v2⟩ := p
    rw [List.map_cons, assocSet_replace_fun]
    by_cases hk : k2 = k
    · rw [if_pos hk, assocLookup_cons, if_pos rfl]
    · rw [if_neg hk, assocLookup_cons, if_neg hk]
      rw [assocLookup_cons, if_neg hk] at h
      exact ih h

theorem assocLookup_map_replace_ne (m : List (String × String)) (k v c : String)
    (hne : k ≠ c) :
    assocLookup (m.map (fun p => if p.1 = k then (k, v) else p)) c = assocLookup m c := by
  induction m with
  | nil => rfl
  | cons p t ih =>
    obtain ⟨k2, v2⟩ := p
    rw [List.map_cons, assocSet_replace_fun]
    by_cases hk : k2 = k
    · rw [if_pos hk, assocLookup_cons, if_neg hne, assocLookup_cons,
        if_neg (by rw [hk]; exact hne)]
      exact ih
    · rw [if_neg hk, assocLookup_cons, assocLookup_cons]
      by_cases hkc : k2 = c
      · rw [if_pos hkc, if_pos hkc]
      · rw [if_neg hkc, if_neg hkc]
        exact ih

theorem assocLookup_append_absent (m : List (String × String)) (k v : String)
    (h : (assocLookup m k).isSome = false) :
    assocLookup (m ++ [(k, v)]) k = some v := by
  induction m with
  | nil => simp [assocLookup]
  | cons p t ih =>
    obtain ⟨k2, v2⟩ := p
    by_cases hk : k2 = k
    · rw [assocLookup_cons, if_pos hk] at h
      simp at h
    · rw [assocLookup_cons, if_neg hk] at h
      rw [List.cons_append, assocLookup_cons, if_neg hk]
      exact ih h

theorem assocLookup_append_ne (m : List (String × String)) (k v c : String)
    (hne : k ≠ c) :
    assocLookup (m ++ [(k, v)]) c = assocLookup m c := by
  induction m with
  | nil =>
    show (if k = c then some v else assocLookup [] c) = none
    rw [if_neg hne]
    rfl
  | cons p t ih =>
    obtain ⟨k2, v2⟩ := p
    rw [List.cons_append, assocLookup_cons, assocLookup_cons]
    by_cases hkc : k2 = c
    · rw [if_pos hkc, if_pos hkc]
    · rw [if_neg hkc, if_neg hkc]
      exact ih

theorem assocLookup_assocSet_self (m : List (String × String)) (k v : String) :
    assocLookup (assocSet m k v) k = some v := by
  unfold assocSet
  by_cases h : (assocLookup m k).isSome
  · rw [if_pos h]
    exact assocLookup_map_replace m k v h
  · rw [if_neg h]
    exact assocLookup_append_absent m k v (by simpa using h)

theorem assocLookup_assocSet_ne (m : List (String × String)) (k v c : String)
    (hne : k ≠ c) :
    assocLookup (assocSet m k v) c = assocLookup m c := by
  unfold assocSet
  by_cases h : (assocLookup m k).isSome
  · rw [if_pos h]
    exact assocLookup_map_replace_ne m k v c hne
  · rw [if_neg h]
    exact assocLookup_append_ne m k v c hne

theorem processRules_ok (cteO : String) :
    ∀ (rules : List (String × NormRef)) (i0 : Nat) (nc0 : List (String × String))
      (acc : List String) (nc : List (String × String)) (joins : List String),
    processRules cteO i0 nc0 acc rules = .ok (nc, joins) →
    (∀ c, c ∉ rules.map Prod.fst → assocLookup nc c = assocLookup nc0 c)
    ∧ ((rules.map Prod.fst).Nodup →
        ∀ i (hi : i < rules.length),
          assocLookup nc (rules.get ⟨i, hi⟩).1
            = some (normValueSelect (tableAlias (rules.get ⟨i, hi⟩).2.t2_name (i0 + i))
                (rules.get ⟨i, hi⟩).2.t2_key_value (rules.get ⟨i, hi⟩).1))
    ∧ (∃ newJoins, joins = acc ++ newJoins ∧ newJoins.length = rules.length ∧
        (∀ i (hi : i < rules.length), ∃ eqs,
          make_joins cteO (rules.get ⟨i, hi⟩).2
              (tableAlias (rules.get ⟨i, hi⟩).2.t2_name (i0 + i)) = .ok eqs ∧
          newJoins[i]? = some (joinClauseStr (rules.get ⟨i, hi⟩).2.t2_name
              (tableAlias (rules.get ⟨i, hi⟩).2.t2_name (i0 + i)) (strJoin " AND " eqs)))) := by
  intro rules
  induction rules with
  | nil =>
    intro i0 nc0 acc nc joins h
    simp only [processRules] at h
    injection h with h
    injection h with h1 h2
    subst h1
    subst h2
    exact ⟨fun c _ => rfl, fun _ i hi => absurd hi (by simp),
      ⟨[], by simp, rfl, fun i hi => absurd hi (by simp)⟩⟩
  | cons hd rest ih =>
    obtain ⟨col, rule⟩ := hd
    intro i0 nc0 acc nc joins h
    simp only [processRules] at h
    split at h
    · exact Except.noConfusion h
    · rename_i js heqj
      obtain ⟨ihA, ihB, ihC⟩ := ih (i0 + 1)
        (assocSet nc0 col (normValueSelect (tableAlias rule.t2_name i0) rule.t2_key_value col))
        (acc ++ [joinClauseStr rule.t2_name (tableAlias rule.t2_name i0) (strJoin " AND " js)])
        nc joins h
      refine ⟨?_, ?_, ?_⟩
      · intro c hc
        have hc1 : c ≠ col := by
          intro hcc
          exact hc (by rw [hcc]; exact List.mem_cons_self _ _)
        have hc2 : c ∉ rest.map Prod.fst := fun hm => hc (by simp [hm])
        rw [ihA c hc2]
        exact assocLookup_assocSet_ne _ _ _ _ (fun hcc => hc1 hcc.symm)
      · intro hnd i hi
        cases i with
        | zero =>
          show assocLookup nc col
            = some (normValueSelect (tableAlias rule.t2_name (i0 + 0)) rule.t2_key_value col)
          have hcolrest : col ∉ rest.map Prod.fst := by
            simp only [List.map_cons, List.nodup_cons] at hnd
            exact hnd.1
          rw [ihA col hcolrest, assocLookup_assocSet_self, Nat.add_zero]
        | succ i2 =>
          have hnd2 : (rest.map Prod.fst).Nodup := by
            simp only [List.map_cons, List.nodup_cons] at hnd
            exact hnd.2
          have hrec := ihB hnd2 i2 (by simpa using hi)
          rw [show i0 + (i2 + 1) = i0 + 1 + i2 from by omega]
          exact hrec
      · obtain ⟨nj, hjoins, hlen, hidx⟩ := ihC
        refine ⟨joinClauseStr rule.t2_name (tableAlias rule.t2_name i0) (strJoin " AND " js) :: nj,
          ?_, by simp [hlen], ?_⟩
        · rw [hjoins, List.append_assoc]
          rfl
        · intro i hi
          cases i with
          | zero =>
            refine ⟨js, ?_, by simp⟩
            show make_joins cteO rule (tableAlias rule.t2_name (i0 + 0)) = .ok js
            rw [Nat.add_zero]
            exact heqj
          | succ i2 =>
            rw [show i0 + (i2 + 1) = i0 + 1 + i2 from by omega]
            obtain ⟨eqs, hmk, hget⟩ := hidx i2 (by simpa using hi)
            exact ⟨eqs, hmk, by simpa using hget⟩

theorem assocLookup_normColsInit (cteO : String) (columns : List String) (c : String)
    (hc : c ∈ columns) :
    assocLookup (normColsInit cteO columns) c = some (cteO ++ "." ++ quoteId c) := by
  induction columns with
  | nil => simp at hc
  | cons d t ih =>
    show (if d = c then some (cteO ++ "." ++ quoteId d) else _) = _
    by_cases hd : d = c
    · rw [if_pos hd, hd]
    · rw [if_neg hd]
      rcases List.mem_cons.mp hc with hcc | hct
      · exact absurd hcc.symm hd
      · exact ih hct

/-- C7: for Reference Rules with pairwise distinct output columns (a
Python dict), when the join builder succeeds the normalization CTE
selects exactly the original batch columns, in the original batch
order; the select item of a column owned by rule `i` is that rule's
surrogate column under the alias `table_i` with `AS "col"` naming the
original column, a column without a rule passes through as
`new_rows."col"`; each rule contributes exactly one `LEFT JOIN` of its
reference table under its own alias, with its join equalities (all of
them, for a composite key) AND-combined; and the aliases of any two
distinct rules differ, even when they reference the same table. -/
theorem C7_norm_cte (cteO cteN : String) (columns : List String)
    (rules : List (String × NormRef)) (nc : List (String × String)) (joins : List String)
    (hnd : (rules.map Prod.fst).Nodup)
    (h : processRules cteO 0 (normColsInit cteO columns) [] rules = .ok (nc, joins)) :
    make_cte_for_norm_values rules columns cteO cteN
      = .ok (", " ++ cteN ++ " AS (SELECT " ++
          strJoin ",\n" (columns.map (fun c => (assocLookup nc c).getD "")) ++ " FROM " ++
          cteO ++ " " ++ strJoin "\n" joins ++ ")")
    ∧ (∀ c, c ∈ columns → c ∉ rules.map Prod.fst →
        assocLookup nc c = some (cteO ++ "." ++ quoteId c))
    ∧ (∀ i (hi : i < rules.length),
        assocLookup nc (rules.get ⟨i, hi⟩).1
          = some (normValueSelect (tableAlias (rules.get ⟨i, hi⟩).2.t2_name i)
              (rules.get ⟨i, hi⟩).2.t2_key_value (rules.get ⟨i, hi⟩).1))
    ∧ joins.length = rules.length
    ∧ (∀ i (hi : i < rules.length), ∃ eqs,
        make_joins cteO (rules.get ⟨i, hi⟩).2
            (tableAlias (rules.get ⟨i, hi⟩).2.t2_name i) = .ok eqs ∧
        joins[i]? = some (joinClauseStr (rules.get ⟨i, hi⟩).2.t2_name
            (tableAlias (rules.get ⟨i, hi⟩).2.t2_name i) (strJoin " AND " eqs)))
    ∧ (∀ i j (hi : i < rules.length) (hj : j < rules.length), i ≠ j →
        tableAlias (rules.get ⟨i, hi⟩).2.t2_name i ≠ tableAlias (rules.get ⟨j, hj⟩).2.t2_name j) := by
  obtain ⟨hA, hB, hC⟩ := processRules_ok cteO rules 0 (normColsInit cteO columns) [] nc joins h
  obtain ⟨nj, hjoins, hlen, hidx⟩ := hC
  have hjoins2 : joins = nj := by rw [hjoins]; rfl
  subst hjoins2
  refine ⟨?_, ?_, ?_, hlen, ?_, ?_⟩
  · unfold make_cte_for_norm_values
    rw [h]
  · intro c hcol hnot
    rw [hA c hnot]
    exact assocLookup_normColsInit cteO columns c hcol
  · intro i hi
    have := hB hnd i hi
    rwa [Nat.zero_add] at this
  · intro i hi
    have := hidx i hi
    rwa [Nat.zero_add] at this
  · intro i j hi hj hne hcontra
    exact hne (tableAlias_inj_idx hcontra)

/-- Two Reference Rules for the C7 witness, both against `teams`; the
second uses a composite join key. -/
def rulesW : List (String × NormRef) :=
  [("home_team", ⟨"team_id", "teams", .pyStr "home_team", .pyStr "name"⟩),
   ("away_team", ⟨"team_id", "teams", .pyTuple ["away_team", "season"], .pyTuple ["name", "season"]⟩)]

/-- Batch columns for the C7 witness. -/
def columnsW : List String := ["home_team", "away_team", "score"]

set_option maxRecDepth 8000 in
/-- C7 witness: two rules against the same `teams` table get the
distinct aliases `teams_0` and `teams_1`; the CTE selects exactly the
batch columns in batch order, substituting the surrogate column for the
two rule columns and passing `score` through; the composite key of the
second rule is AND-combined. -/
theorem C7_witness :
    make_cte_for_norm_values rulesW columnsW "new_rows" "new_rows_norm"
      = .ok (", new_rows_norm AS (SELECT \"teams_0\".\"team_id\" AS \"home_team\",\n\"teams_1\".\"team_id\" AS \"away_team\",\nnew_rows.\"score\" FROM new_rows LEFT JOIN \"teams\" \"teams_0\" ON new_rows.\"home_team\" = \"teams_0\".\"name\"\nLEFT JOIN \"teams\" \"teams_1\" ON new_rows.\"away_team\" = \"teams_1\".\"name\" AND new_rows.\"season\" = \"teams_1\".\"season\")")
    ∧ tableAlias "teams" 0 ≠ tableAlias "teams" 1 := by
  have h := C7_norm_cte "new_rows" "new_rows_norm" columnsW rulesW _ _ (by decide) rfl
  exact ⟨h.1, h.2.2.2.2.2 0 1 (by decide) (by decide) (by decide)⟩

/-! ### Claims C9 and C10: join-key shapes -/

/-- Arity of a join key as the spec data model defines it (§3,
Reference Rule): one column name has arity 1, an ordered tuple of
column names has its number of entries.  This follows the wording of
the spec and is compared against what the code does. -/
def specKeyArity : PyKey → Nat
  | .pyStr _ => 1
  | .pyTuple l => l.length

/-- The Reference Rule of the C9 counterexample: a plain string batch
key against a 2-tuple reference key. -/
def ruleMixed : NormRef := ⟨"team_id", "teams", .pyStr "ab", .pyTuple ["x", "y"]⟩

/-- C9 counterexample: a rule whose batch-side key is the single column
name `"ab"` (arity 1) and whose reference-side key is a 2-tuple (arity
2) does not fail at query-build time: the string is iterated
character-wise, its two characters zip against the tuple, the join
builder succeeds, and a full insert through this rule executes without
any error. -/
theorem C9_counterexample :
    specKeyArity (PyKey.pyStr "ab") ≠ specKeyArity (PyKey.pyTuple ["x", "y"])
    ∧ make_joins "new_rows" ruleMixed "teams_0"
        = .ok ["new_rows.\"a\" = \"teams_0\".\"x\"", "new_rows.\"b\" = \"teams_0\".\"y\""]
    ∧ (insert_values E1 ⟨0, 0⟩ "t"
        [[("team", Value.pyStr "India"), ("a", Value.pyInt 1), ("b", Value.pyInt 2)]]
        none none (some [("team", ruleMixed)]) none "public").result = .ok none := by
  exact ⟨by decide, by decide, rfl⟩

theorem conflictConds_err (source : String) (post : List ConflictEntry) :
    ∀ pre : List ConflictEntry, ConflictEntry.other ∉ pre →
    conflictConds source (pre ++ ConflictEntry.other :: post)
      = .error (.typeError "Conflict column must be a string or a tuple of strings") := by
  intro pre
  induction pre with
  | nil => intro _; rfl
  | cons e0 t ih =>
    intro hno
    have he0 : e0 ≠ ConflictEntry.other := by
      intro hc
      exact hno (by rw [hc]; exact List.mem_cons_self _ _)
    have ht : ConflictEntry.other ∉ t := fun hm => hno (List.mem_cons_of_mem _ hm)
    cases e0 with
    | other => exact absurd rfl he0
    | str c =>
      show (match conflictConds source (t ++ ConflictEntry.other :: post) with
        | Except.error err => Except.error err
        | Except.ok cs => Except.ok (("(" ++ ("p." ++ quoteId c ++ " = " ++ source ++ "." ++ quoteId c) ++ ")") :: cs)) = _
      rw [ih ht]
    | tup l =>
      show (match conflictConds source (t ++ ConflictEntry.other :: post) with
        | Except.error err => Except.error err
        | Except.ok cs => Except.ok (("(" ++ strJoin " AND "
            (l.map (fun col => "p." ++ quoteId col ++ " = " ++ source ++ "." ++ quoteId col)) ++ ")") :: cs)) = _
      rw [ih ht]

/-- C9 amended: a `ValueError` is raised at query-build time exactly
when the two join keys, as Python iterates them, yield different
element counts — two tuples of different lengths, or a string whose
character count differs from the other side's tuple length; a mixed
string/tuple pair with matching character count raises nothing (see the
C9 counterexample and C10).  A uniqueness-constraint entry that is
neither a string nor a tuple raises a `TypeError` at build time.  Any
such build-time error propagates out of `insert_values` before the
engine is invoked: the connection is untouched, for every engine. -/
theorem C9_amended_build_errors :
    (∀ (cteO kv t2name : String) (l1 l2 : List String) (a : String),
       l1.length ≠ l2.length →
       make_joins cteO ⟨kv, t2name, .pyTuple l1, .pyTuple l2⟩ a
         = .error (.valueError ("Length of join keys must be the same, got " ++
             natDecimal l1.length ++ " and " ++ natDecimal l2.length)))
    ∧ (∀ (cteO kv t2name : String) (s : String) (l : List String) (a : String),
       s.length ≠ l.length →
       make_joins cteO ⟨kv, t2name, .pyStr s, .pyTuple l⟩ a
         = .error (.valueError ("Length of join keys must be the same, got " ++
             natDecimal s.length ++ " and " ++ natDecimal l.length)))
    ∧ (∀ (schema target source : String) (pre post : List ConflictEntry),
       ConflictEntry.other ∉ pre →
       get_exclusion_clause schema target source (pre ++ ConflictEntry.other :: post)
         = .error (.typeError "Conflict column must be a string or a tuple of strings"))
    ∧ (∀ (σ : Type) (E : Engine σ) (conn : Conn σ) (table : String)
         (r : Row) (rs : List Row)
         (cti : Option (List String)) (uniq : Option (List ConflictEntry))
         (norm : Option (List (String × NormRef))) (types : Option (List (String × String)))
         (schema : String) (e : PyErr),
       validate_columns (r :: rs) = .ok () →
       insert_values_query table (r :: rs) cti uniq norm types schema = .error e →
       insert_values E conn table (r :: rs) cti uniq norm types schema = ⟨conn, [], .error e⟩) := by
  refine ⟨?_, ?_, ?_, ?_⟩
  · intro cteO kv t2name l1 l2 a h
    simp [make_joins, pyKeyLen, h]
  · intro cteO kv t2name s2 l a h
    simp [make_joins, pyKeyLen, h]
  · intro schema target source pre post hno
    unfold get_exclusion_clause
    rw [conflictConds_err source post pre hno]
  · intro σ E conn table r rs cti uniq norm types schema e hval hq
    rw [insert_values_cons, hval, hq]

/-- C9 amended, witness: each failure mode at a concrete input, plus
the propagation of a build-time `TypeError` through `insert_values`
with the connection untouched. -/
theorem C9_amended_witness :
    make_joins "new_rows" ⟨"team_id", "teams", .pyTuple ["a"], .pyTuple ["x", "y"]⟩ "teams_0"
      = .error (.valueError "Length of join keys must be the same, got 1 and 2")
    ∧ make_joins "new_rows" ⟨"team_id", "teams", .pyStr "abc", .pyTuple ["x", "y"]⟩ "teams_0"
      = .error (.valueError "Length of join keys must be the same, got 3 and 2")
    ∧ get_exclusion_clause "public" "t" "new_rows" [ConflictEntry.str "a", ConflictEntry.other]
      = .error (.typeError "Conflict column must be a string or a tuple of strings")
    ∧ insert_values E1 ⟨0, 0⟩ "t" [[("a", Value.pyInt 1)]] none (some [ConflictEntry.other])
        none none "public"
      = ⟨⟨0, 0⟩, [], .error (.typeError "Conflict column must be a string or a tuple of strings")⟩ := by
  have h := C9_amended_build_errors
  refine ⟨h.1 "new_rows" "team_id" "teams" ["a"] ["x", "y"] "teams_0" (by decide),
    h.2.1 "new_rows" "team_id" "teams" "abc" ["x", "y"] "teams_0" (by decide), ?_, ?_⟩
  · exact h.2.2.1 "public" "t" "new_rows" [ConflictEntry.str "a"] [] (by decide)
  · exact h.2.2.2 Nat E1 ⟨0, 0⟩ "t" [("a", Value.pyInt 1)] [] none
      (some [ConflictEntry.other]) none none "public" _ rfl rfl

/-- C10: a mixed string/tuple pair of join keys is not rejected as a
type error: both are iterable, so the pair lands in the multi-column
branch, where Python `len` counts the string's characters; when the
counts agree the string's individual characters are zipped against the
tuple entries as join columns, and a `ValueError` about key lengths is
raised exactly when the counts differ. -/
theorem C10_string_iteration (cteO kv t2name : String) (s : String) (l : List String)
    (a : String) :
    make_joins cteO ⟨kv, t2name, .pyStr s, .pyTuple l⟩ a
      = (if s.length = l.length
         then .ok (((s.data.map (fun ch => (⟨[ch]⟩ : String))).zip l).map
             (fun p => joinEq cteO p.1 a p.2))
         else .error (.valueError ("Length of join keys must be the same, got " ++
             natDecimal s.length ++ " and " ++ natDecimal l.length)))
    ∧ make_joins cteO ⟨kv, t2name, .pyTuple l, .pyStr s⟩ a
      = (if l.length = s.length
         then .ok ((l.zip (s.data.map (fun ch => (⟨[ch]⟩ : String)))).map
             (fun p => joinEq cteO p.1 a p.2))
         else .error (.valueError ("Length of join keys must be the same, got " ++
             natDecimal l.length ++ " and " ++ natDecimal s.length)))
    ∧ pyKeyItems (PyKey.pyStr s) = s.data.map (fun ch => (⟨[ch]⟩ : String)) := by
  refine ⟨?_, ?_, rfl⟩
  · by_cases h : s.length = l.length
    · simp [make_joins, pyKeyLen, pyKeyItems, h]
    · simp [make_joins, pyKeyLen, pyKeyItems, h]
  · by_cases h : l.length = s.length
    · simp [make_joins, pyKeyLen, pyKeyItems, h]
    · simp [make_joins, pyKeyLen, pyKeyItems, h]

end DbWrapper
